import Mathlib

/-!
# Starfleet SDK — verification of the scene-model utilities

Shallow embedding of the validation / statistics / factory utilities of the
Starfleet SDK (TypeScript binding in `src/ts/src/index.ts`, Go binding in
`src/go/models.go`), together with theorems settling the specification
claims about them.

Modelling conventions:
* JS numbers are modelled as rationals (`ℚ`); none of the verified
  properties depend on floating-point rounding.
* Possibly-absent fields (TypeScript optional fields, or required fields of
  a partially-constructed value) are modelled as `Option`.
* JS string truthiness (absent and the empty string are both falsy) is
  `strTruthy`; template interpolation of a possibly-undefined string is
  `jsShow` (JS prints the literal text "undefined").
* A JS `TypeError` (property access on `undefined`) is modelled as
  `Except.error ()`; a normal return is `Except.ok`.
-/

namespace Starfleet

namespace TS

/-- JS truthiness of a possibly-absent string: `undefined` and `""` are
falsy, every other string is truthy. -/
def strTruthy : Option String → Bool
  | none => false
  | some s => s != ""

/-- JS template interpolation of a possibly-absent string:
interpolating `undefined` prints the text "undefined". -/
def jsShow : Option String → String
  | none => "undefined"
  | some s => s

/-- Vector3 / Euler3 / Scale3 of `index.ts` (three numeric components;
the three interfaces have the identical shape). -/
structure Vec3 where
  x : ℚ
  y : ℚ
  z : ℚ
deriving DecidableEq, Repr

/-- A `Partial<Vector3>` argument: each component may be absent. -/
structure PartialVec3 where
  x : Option ℚ
  y : Option ℚ
  z : Option ℚ
deriving DecidableEq, Repr

/-- The `Partial` record with no component supplied (the `{}` default
argument of `createTransform`). -/
def emptyPartialVec3 : PartialVec3 := ⟨none, none, none⟩

/-- Model of `Transform` of `index.ts`: a fully-populated position/rotation/scale
triple, as produced by `createTransform`. -/
structure Transform where
  position : Vec3
  rotation : Vec3
  scale : Vec3
deriving DecidableEq, Repr

/-- Model of `createTransform` (index.ts lines 445-455): spreads each supplied
partial component over the defaults `{x:0,y:0,z:0}` / `{x:0,y:0,z:0}` /
`{x:1,y:1,z:1}`, field by field. -/
def createTransform (position rotation scale : PartialVec3) : Transform :=
  { position := ⟨position.x.getD 0, position.y.getD 0, position.z.getD 0⟩
    rotation := ⟨rotation.x.getD 0, rotation.y.getD 0, rotation.z.getD 0⟩
    scale := ⟨scale.x.getD 1, scale.y.getD 1, scale.z.getD 1⟩ }

/-- Model of `Color` of `index.ts`: r,g,b required, alpha optional. -/
structure Color where
  r : ℚ
  g : ℚ
  b : ℚ
  a : Option ℚ
deriving DecidableEq, Repr

/-- Model of `Material` of `index.ts`: every field is optional. The same shape
serves as the `Partial<Material>` overrides argument of `createMaterial`. -/
structure Material where
  color : Option Color
  emissive : Option Color
  metalness : Option ℚ
  roughness : Option ℚ
  opacity : Option ℚ
  transparent : Option Bool
  wireframe : Option Bool
  texture : Option String
deriving DecidableEq, Repr

/-- The all-absent overrides record (the `{}` default argument of
`createMaterial`). -/
def emptyMaterial : Material :=
  ⟨none, none, none, none, none, none, none, none⟩

/-- Model of `createMaterial` (index.ts lines 460-470): the JS object spread
`{...defaults, ...overrides}` keeps a default field exactly when the
overrides object does not supply that field; a supplied field (including
the whole `color` object) replaces the default wholesale. The defaults
supply no `emissive` and no `texture`. -/
def createMaterial (overrides : Material) : Material :=
  { color := some (overrides.color.getD ⟨0.8, 0.8, 0.8, some 1⟩)
    emissive := overrides.emissive
    metalness := some (overrides.metalness.getD 0)
    roughness := some (overrides.roughness.getD 0.5)
    opacity := some (overrides.opacity.getD 1)
    transparent := some (overrides.transparent.getD false)
    wireframe := some (overrides.wireframe.getD false)
    texture := overrides.texture }

/-- The `transform` field of a scene node as `validateScene` /
`calculateSceneStats` see it: on malformed data the `position` component
itself may be absent (the code guards positions with `.filter(Boolean)`).
The rotation and scale components are never inspected by the verified
functions. -/
structure TransformData where
  position : Option Vec3
  rotation : Option Vec3
  scale : Option Vec3
deriving DecidableEq, Repr

/-- Model of `SceneNode` restricted to the fields the verified functions inspect
(`id`, `name`, `type`, `transform`); every field may be absent in
partially-constructed input. The remaining fields of the interface
(geometry, material, visibility, metadata, metrics, status, animations,
parent, children, extensions) are read by no function under
verification. -/
structure SceneNode where
  id : Option String
  type : Option String
  name : Option String
  transform : Option TransformData
deriving DecidableEq, Repr

/-- Model of `SceneEdge` restricted to the fields the verified functions inspect
(`id`, `source`, `target`); every field may be absent in malformed
input. -/
structure SceneEdge where
  id : Option String
  source : Option String
  target : Option String
deriving DecidableEq, Repr

/-- Model of `SceneGraph` restricted to the inspected fields: the node list and the
edge list, each possibly absent. Bounds, camera, lights and environment
are read by no function under verification. -/
structure SceneGraph where
  nodes : Option (List SceneNode)
  edges : Option (List SceneEdge)
deriving DecidableEq, Repr

/-- Model of `SceneMetadata` restricted to the inspected field `name`. -/
structure SceneMetadata where
  name : Option String
deriving DecidableEq, Repr

/-- Model of `SceneFile`: the unit of validation. Every field may be absent, since
the validator is documented to accept partially-constructed data. -/
structure SceneFile where
  version : Option String
  metadata : Option SceneMetadata
  scene : Option SceneGraph
deriving DecidableEq, Repr

/-- Model of `ValidationResult` of `index.ts`. -/
structure ValidationResult where
  valid : Bool
  errors : List String
  warnings : List String
deriving DecidableEq, Repr

def msgNoVersion : String := "Scene file must have a version"

def msgNoName : String := "Scene file must have a name"

def msgNoNodes : String := "Scene file must have nodes"

def msgNodeNoId : String := "All nodes must have an id"

def msgEdgeNoId : String := "All edges must have an id"

/-- The duplicate-node-id error string pushed at index.ts line 505. -/
def dupNodeMsg (s : String) : String := "Duplicate node id: " ++ s

/-- The duplicate-edge-id error string pushed at index.ts line 521. -/
def dupEdgeMsg (s : String) : String := "Duplicate edge id: " ++ s

/-- The missing-name warning pushed at index.ts line 511; interpolates
`node.id`, which may be absent. -/
def noNameWarning (n : SceneNode) : String :=
  "Node " ++ jsShow n.id ++ " has no name"

/-- The dangling-source error pushed at index.ts line 527. -/
def srcErrMsg (e : SceneEdge) : String :=
  "Edge " ++ jsShow e.id ++ " references non-existent source node: " ++ jsShow e.source

/-- The dangling-target error pushed at index.ts line 531. -/
def tgtErrMsg (e : SceneEdge) : String :=
  "Edge " ++ jsShow e.id ++ " references non-existent target node: " ++ jsShow e.target

/-- State produced by the node-validation loop: the set of seen node ids
(a JS `Set<string>`, modelled as a duplicate-free list), the errors and
the warnings pushed by the loop, in push order. -/
structure NodeScan where
  seen : List String
  errors : List String
  warnings : List String
deriving DecidableEq, Repr

/-- The warning push of the node loop (index.ts lines 510-512): a falsy
`name` pushes `noNameWarning`, independently of the id checks. -/
def nodeWarnings (n : SceneNode) : List String :=
  if !(strTruthy n.name) then [noNameWarning n] else []

/-- The node-validation loop of `validateScene` (index.ts lines 500-513):
for each node in order, a falsy id pushes `msgNodeNoId`, an already-seen
id pushes `dupNodeMsg`, an unseen truthy id is recorded in the seen set;
independently `nodeWarnings` pushes the missing-name warning. -/
def validateNodes : List SceneNode → List String → NodeScan
  | [], seen => ⟨seen, [], []⟩
  | n :: ns, seen =>
    if !(strTruthy n.id) then
      let rest := validateNodes ns seen
      ⟨rest.seen, msgNodeNoId :: rest.errors, nodeWarnings n ++ rest.warnings⟩
    else if seen.contains (n.id.getD "") then
      let rest := validateNodes ns seen
      ⟨rest.seen, dupNodeMsg (n.id.getD "") :: rest.errors, nodeWarnings n ++ rest.warnings⟩
    else
      let rest := validateNodes ns (n.id.getD "" :: seen)
      ⟨rest.seen, rest.errors, nodeWarnings n ++ rest.warnings⟩

/-- JS `Set.has` applied to a possibly-undefined string: the node-id set
holds only strings, so `has(undefined)` is false. -/
def hasOpt (ids : List String) : Option String → Bool
  | none => false
  | some s => ids.contains s

/-- The two independent reference checks run for one edge
(index.ts lines 526-532). -/
def edgeRefErrors (nodeIds : List String) (e : SceneEdge) : List String :=
  (if hasOpt nodeIds e.source then [] else [srcErrMsg e]) ++
  (if hasOpt nodeIds e.target then [] else [tgtErrMsg e])

/-- The edge-validation loop of `validateScene` (index.ts lines 516-533):
the same absent/duplicate id pattern as nodes, then the two reference
checks of `edgeRefErrors`, for each edge in order. -/
def validateEdges (nodeIds : List String) : List SceneEdge → List String → List String
  | [], _ => []
  | e :: es, seen =>
    if !(strTruthy e.id) then
      msgEdgeNoId :: (edgeRefErrors nodeIds e ++ validateEdges nodeIds es seen)
    else if seen.contains (e.id.getD "") then
      dupEdgeMsg (e.id.getD "") :: (edgeRefErrors nodeIds e ++ validateEdges nodeIds es seen)
    else
      edgeRefErrors nodeIds e ++ validateEdges nodeIds es (e.id.getD "" :: seen)

/-- The three presence checks of `validateScene` (index.ts lines 487-497),
in push order. The third check tests `!scene.scene?.nodes`: an empty node
array is truthy in JS, so only an absent graph or absent node list
triggers it. -/
def presenceErrors (scene : SceneFile) : List String :=
  (if strTruthy scene.version then [] else [msgNoVersion]) ++
  (if strTruthy (scene.metadata.bind SceneMetadata.name) then [] else [msgNoName]) ++
  (if (scene.scene.bind SceneGraph.nodes).isSome then [] else [msgNoNodes])

/-- Model of `validateScene` (index.ts lines 482-540). The presence checks use the
optional-chaining form `scene.scene?.nodes`, but the two loop headers read
`scene.scene.nodes || []` and `scene.scene.edges || []` without optional
chaining: when the `scene` graph field is absent the function therefore
throws a `TypeError` (modelled as `Except.error ()`); when the graph is
present, an absent node or edge list falls back to `[]`. On a normal
return, `valid` is the emptiness of the collected error list. -/
def validateScene (scene : SceneFile) : Except Unit ValidationResult :=
  match scene.scene with
  | none => Except.error ()
  | some g =>
    let scan := validateNodes (g.nodes.getD []) []
    let edgeErrs := validateEdges scan.seen (g.edges.getD []) []
    let errors := presenceErrors scene ++ scan.errors ++ edgeErrs
    Except.ok ⟨errors.isEmpty, errors, scan.warnings⟩

/-- Model of `SceneStats.bounds` of `index.ts`. -/
structure BoundsSize where
  min : Vec3
  max : Vec3
  size : Vec3
deriving DecidableEq, Repr

/-- Model of `SceneStats` restricted to the fields `calculateSceneStats` fills
(`totalVertices`, `totalTriangles`, `memoryUsage` are never produced by
the core). -/
structure SceneStats where
  nodeCount : Nat
  edgeCount : Nat
  bounds : Option BoundsSize
deriving DecidableEq, Repr

/-- Model of `Math.min(x, ...xs)` over a nonempty argument list. -/
def foldMin (x : ℚ) (xs : List ℚ) : ℚ := xs.foldl min x

/-- Model of `Math.max(x, ...xs)` over a nonempty argument list. -/
def foldMax (x : ℚ) (xs : List ℚ) : ℚ := xs.foldl max x

/-- The position list collected by `calculateSceneStats`
(index.ts lines 552-554): the `transform.position` of each node, with falsy
(absent) positions filtered out by `.filter(Boolean)`. -/
def collectedPositions (g : SceneGraph) : List Vec3 :=
  (g.nodes.getD []).filterMap (fun n => n.transform.bind TransformData.position)

/-- Body of `calculateSceneStats` (index.ts lines 545-585) once the graph
has been read: the transform-presence guard (reading
`node.transform.position` of an absent transform throws, while an absent
`position` inside a present transform is tolerated by `.filter(Boolean)`),
the counts, and the bounds fold: with at least one collected position,
bounds are the componentwise `Math.min` / `Math.max` of the collected
x, y, z values and `size = max - min` componentwise; with none, `bounds`
stays absent. -/
def statsOfGraph (g : SceneGraph) : Except Unit SceneStats :=
  if (g.nodes.getD []).any (fun n => n.transform.isNone) then Except.error ()
  else
    let nodeCount := (g.nodes.getD []).length
    let edgeCount := (g.edges.getD []).length
    match collectedPositions g with
    | [] => Except.ok ⟨nodeCount, edgeCount, none⟩
    | p :: ps =>
      let lo : Vec3 :=
        ⟨foldMin p.x (ps.map Vec3.x), foldMin p.y (ps.map Vec3.y), foldMin p.z (ps.map Vec3.z)⟩
      let hi : Vec3 :=
        ⟨foldMax p.x (ps.map Vec3.x), foldMax p.y (ps.map Vec3.y), foldMax p.z (ps.map Vec3.z)⟩
      Except.ok ⟨nodeCount, edgeCount,
        some ⟨lo, hi, ⟨hi.x - lo.x, hi.y - lo.y, hi.z - lo.z⟩⟩⟩

/-- Model of `calculateSceneStats` (index.ts lines 545-585): reads
`scene.scene.nodes` without optional chaining on `scene`, so an absent
graph throws a `TypeError`; otherwise computes `statsOfGraph`. -/
def calculateSceneStats (scene : SceneFile) : Except Unit SceneStats :=
  match scene.scene with
  | none => Except.error ()
  | some g => statsOfGraph g

end TS

namespace Go

/-- Model of `Vector3` of `models.go` (also the shape of `Euler3` and `Scale3`). -/
structure Vector3 where
  x : ℚ
  y : ℚ
  z : ℚ
deriving DecidableEq, Repr

/-- Model of `Transform` of `models.go`. -/
structure Transform where
  position : Vector3
  rotation : Vector3
  scale : Vector3
deriving DecidableEq, Repr

/-- Model of `SceneNode` of `models.go`, restricted to its required scalar fields;
the optional pointer/map/slice fields are read by none of the modelled
methods. Go structs are total: a missing JSON field is the zero value. -/
structure SceneNode where
  id : String
  type : String
  name : String
  transform : Transform
deriving DecidableEq, Repr

/-- Model of `SceneEdge` of `models.go`, restricted to its required fields. -/
structure SceneEdge where
  id : String
  source : String
  target : String
deriving DecidableEq, Repr

/-- Model of `Bounds` of `models.go`. -/
structure Bounds where
  min : Vector3
  max : Vector3
deriving DecidableEq, Repr

/-- Model of `SceneGraph` of `models.go`: node and edge slices plus the optional
scene-level bounds. The optional camera/lights/environment fields are
read and written by none of the modelled methods and are omitted. -/
structure SceneGraph where
  nodes : List SceneNode
  edges : List SceneEdge
  bounds : Option Bounds
deriving DecidableEq, Repr

/-- Model of `SceneMetadata` of `models.go`, restricted to its string fields; the
timestamp pointers are not inspected by the modelled methods. -/
structure SceneMetadata where
  name : String
  description : String
  author : String
deriving DecidableEq, Repr

/-- Model of `SceneFile` of `models.go`. The open `Assets` map is an association
list; the `Extensions` bag carries uninterpreted payloads, represented as
strings, since no modelled method inspects them. -/
structure SceneFile where
  version : String
  metadata : SceneMetadata
  scene : SceneGraph
  assets : List (String × String)
  extensions : List (String × String)
deriving DecidableEq, Repr

/-- Model of `AddNode` (models.go lines 377-380): appends the node to the node
slice, unconditionally. -/
def AddNode (sf : SceneFile) (node : SceneNode) : SceneFile :=
  { sf with scene := { sf.scene with nodes := sf.scene.nodes ++ [node] } }

/-- Model of `AddEdge` (models.go lines 383-385). -/
def AddEdge (sf : SceneFile) (edge : SceneEdge) : SceneFile :=
  { sf with scene := { sf.scene with edges := sf.scene.edges ++ [edge] } }

/-- Model of `GetNodeCount` (models.go lines 407-410). -/
def GetNodeCount (sf : SceneFile) : Nat := sf.scene.nodes.length

/-- Model of `GetEdgeCount` (models.go lines 413-415). -/
def GetEdgeCount (sf : SceneFile) : Nat := sf.scene.edges.length

end Go

namespace TS

/-! ### Concrete test fixtures (inputs used by witnesses and examples) -/

/-- A node transform carrying only a position, as the stats code reads it. -/
def tfData (p : Vec3) : TransformData := ⟨some p, none, none⟩

/-- A fully-formed node with the given id, name and position. -/
def mkNode (i nm : String) (p : Vec3) : SceneNode :=
  ⟨some i, some "server", some nm, some (tfData p)⟩

/-- C1 counterexample input: a scene file whose `scene` graph field is
absent (version and metadata present). -/
def c1Scene : SceneFile := ⟨some "0.1.0", some ⟨some "Bad"⟩, none⟩

/-- C1 witness input: graph present, node list and edge list both absent. -/
def c1Graph : SceneGraph := ⟨none, none⟩

def c1OkScene : SceneFile := ⟨some "0.1.0", some ⟨some "Ok"⟩, some c1Graph⟩

/-- C2 witness input: version and name present, empty node and edge lists. -/
def c2Graph : SceneGraph := ⟨some [], some []⟩

def c2Scene : SceneFile := ⟨some "0.1.0", some ⟨some "Test Scene"⟩, some c2Graph⟩

/-- C3 witness input: three nodes sharing the id "a". -/
def c3Graph : SceneGraph :=
  ⟨some [mkNode "a" "n0" ⟨0, 0, 0⟩, mkNode "a" "n1" ⟨0, 0, 0⟩, mkNode "a" "n2" ⟨0, 0, 0⟩],
   some []⟩

def c3Scene : SceneFile := ⟨some "0.1.0", some ⟨some "Dup"⟩, some c3Graph⟩

/-- C4 witness input: one node "a"; one edge whose source "x" resolves to
no node and whose target "a" does. -/
def c4Edge : SceneEdge := ⟨some "e1", some "x", some "a"⟩

/-- C4 self-referential edge: source and target both name the node "a". -/
def c4SelfEdge : SceneEdge := ⟨some "e2", some "a", some "a"⟩

def c4Graph : SceneGraph := ⟨some [mkNode "a" "A" ⟨0, 0, 0⟩], some [c4Edge]⟩

def c4Scene : SceneFile := ⟨some "0.1.0", some ⟨some "Refs"⟩, some c4Graph⟩

/-- C5 witness input: the three positions of the bounds round-trip property of the spec. -/
def c5Graph : SceneGraph :=
  ⟨some [mkNode "n0" "N0" ⟨0, 0, 0⟩, mkNode "n1" "N1" ⟨10, 20, 30⟩,
         mkNode "n2" "N2" ⟨-5, -10, -15⟩],
   some []⟩

def c5Scene : SceneFile := ⟨some "0.1.0", some ⟨some "Bounds"⟩, some c5Graph⟩

/-- C5 empty-scene input: no nodes, no edges. -/
def c5EmptyGraph : SceneGraph := ⟨some [], some []⟩

def c5EmptyScene : SceneFile := ⟨some "0.1.0", some ⟨some "Empty"⟩, some c5EmptyGraph⟩

/-- C6 witness input: a single node with an id but no name. -/
def c6Node : SceneNode := ⟨some "n1", some "server", none, some (tfData ⟨0, 0, 0⟩)⟩

def c6Graph : SceneGraph := ⟨some [c6Node], some []⟩

def c6Scene : SceneFile := ⟨some "0.1.0", some ⟨some "NoName"⟩, some c6Graph⟩

/-- C10 witness input: two nodes whose ids are both the empty string. -/
def c10Graph : SceneGraph :=
  ⟨some [⟨some "", some "server", some "N1", some (tfData ⟨0, 0, 0⟩)⟩,
         ⟨some "", some "server", some "N2", some (tfData ⟨0, 0, 0⟩)⟩],
   some []⟩

def c10Scene : SceneFile := ⟨some "0.1.0", some ⟨some "EmptyIds"⟩, some c10Graph⟩

/-- Rewrites every node name of a scene (used to state that validation
errors do not depend on node names). -/
def mapNodeNames (f : Option String → Option String) (scene : SceneFile) : SceneFile :=
  { scene with
    scene := scene.scene.map (fun g =>
      { g with nodes := g.nodes.map (List.map (fun n => { n with name := f n.name })) }) }

/-- Number of nodes of a list carrying the (present) id `s`. -/
def countNodeId (s : String) (l : List SceneNode) : Nat :=
  l.countP (fun n => n.id == some s)

/-- Predicate: `m` is the exact minimum of the multiset `l`. -/
def isMinOf (m : ℚ) (l : List ℚ) : Prop := m ∈ l ∧ ∀ q ∈ l, m ≤ q

/-- Predicate: `m` is the exact maximum of the multiset `l`. -/
def isMaxOf (m : ℚ) (l : List ℚ) : Prop := m ∈ l ∧ ∀ q ∈ l, q ≤ m

end TS

namespace TS

/-! ### Helper lemmas: the error strings of distinct checks are distinct -/

theorem dupNodeMsg_injective {t s : String} (h : dupNodeMsg t = dupNodeMsg s) : t = s := by
  have hd := congrArg String.data h
  simp only [dupNodeMsg, String.data_append] at hd
  apply String.ext
  simpa using hd

theorem msgNodeNoId_ne_dupNodeMsg (s : String) : msgNodeNoId ≠ dupNodeMsg s := by
  intro h
  have hd := congrArg String.data h
  simp [msgNodeNoId, dupNodeMsg, String.data_append] at hd

theorem msgEdgeNoId_ne_dupNodeMsg (s : String) : msgEdgeNoId ≠ dupNodeMsg s := by
  intro h
  have hd := congrArg String.data h
  simp [msgEdgeNoId, dupNodeMsg, String.data_append] at hd

theorem dupEdgeMsg_ne_dupNodeMsg (t s : String) : dupEdgeMsg t ≠ dupNodeMsg s := by
  intro h
  have hd := congrArg String.data h
  simp [dupEdgeMsg, dupNodeMsg, String.data_append] at hd

theorem srcErrMsg_ne_dupNodeMsg (e : SceneEdge) (s : String) : srcErrMsg e ≠ dupNodeMsg s := by
  intro h
  have hd := congrArg String.data h
  simp [srcErrMsg, dupNodeMsg, String.data_append] at hd

theorem tgtErrMsg_ne_dupNodeMsg (e : SceneEdge) (s : String) : tgtErrMsg e ≠ dupNodeMsg s := by
  intro h
  have hd := congrArg String.data h
  simp [tgtErrMsg, dupNodeMsg, String.data_append] at hd

theorem msgNoVersion_ne_dupNodeMsg (s : String) : msgNoVersion ≠ dupNodeMsg s := by
  intro h
  have hd := congrArg String.data h
  simp [msgNoVersion, dupNodeMsg, String.data_append] at hd

theorem msgNoName_ne_dupNodeMsg (s : String) : msgNoName ≠ dupNodeMsg s := by
  intro h
  have hd := congrArg String.data h
  simp [msgNoName, dupNodeMsg, String.data_append] at hd

theorem msgNoNodes_ne_dupNodeMsg (s : String) : msgNoNodes ≠ dupNodeMsg s := by
  intro h
  have hd := congrArg String.data h
  simp [msgNoNodes, dupNodeMsg, String.data_append] at hd

/-! ### Helper lemmas: the node and edge loops -/

theorem strTruthy_eq_true {o : Option String} (h : strTruthy o = true) :
    ∃ t, o = some t ∧ t ≠ "" := by
  cases o with
  | none => simp [strTruthy] at h
  | some t =>
    refine ⟨t, rfl, ?_⟩
    simpa [strTruthy] using h

theorem strTruthy_eq_false {o : Option String} (h : strTruthy o = false) :
    o = none ∨ o = some "" := by
  cases o with
  | none => exact Or.inl rfl
  | some t =>
    refine Or.inr ?_
    have : t = "" := by simpa [strTruthy] using h
    simp [this]

theorem validateNodes_seen_missing {n : SceneNode} (h : strTruthy n.id = false)
    (ns : List SceneNode) (seen : List String) :
    (validateNodes (n :: ns) seen).seen = (validateNodes ns seen).seen := by
  simp [validateNodes, h]

theorem validateNodes_errors_missing {n : SceneNode} (h : strTruthy n.id = false)
    (ns : List SceneNode) (seen : List String) :
    (validateNodes (n :: ns) seen).errors = msgNodeNoId :: (validateNodes ns seen).errors := by
  simp [validateNodes, h]

theorem validateNodes_warnings_missing {n : SceneNode} (h : strTruthy n.id = false)
    (ns : List SceneNode) (seen : List String) :
    (validateNodes (n :: ns) seen).warnings = nodeWarnings n ++ (validateNodes ns seen).warnings := by
  simp [validateNodes, h]

theorem validateNodes_seen_dup {n : SceneNode} {t : String} (ht : n.id = some t) (hne : t ≠ "")
    {seen : List String} (hseen : seen.contains t = true) (ns : List SceneNode) :
    (validateNodes (n :: ns) seen).seen = (validateNodes ns seen).seen := by
  have hmem : t ∈ seen := by simpa using hseen
  simp [validateNodes, ht, strTruthy, hne, hmem]

theorem validateNodes_errors_dup {n : SceneNode} {t : String} (ht : n.id = some t) (hne : t ≠ "")
    {seen : List String} (hseen : seen.contains t = true) (ns : List SceneNode) :
    (validateNodes (n :: ns) seen).errors = dupNodeMsg t :: (validateNodes ns seen).errors := by
  have hmem : t ∈ seen := by simpa using hseen
  simp [validateNodes, ht, strTruthy, hne, hmem]

theorem validateNodes_warnings_dup {n : SceneNode} {t : String} (ht : n.id = some t) (hne : t ≠ "")
    {seen : List String} (hseen : seen.contains t = true) (ns : List SceneNode) :
    (validateNodes (n :: ns) seen).warnings = nodeWarnings n ++ (validateNodes ns seen).warnings := by
  have hmem : t ∈ seen := by simpa using hseen
  simp [validateNodes, ht, strTruthy, hne, hmem]

theorem validateNodes_seen_new {n : SceneNode} {t : String} (ht : n.id = some t) (hne : t ≠ "")
    {seen : List String} (hseen : seen.contains t = false) (ns : List SceneNode) :
    (validateNodes (n :: ns) seen).seen = (validateNodes ns (t :: seen)).seen := by
  have hmem : t ∉ seen := by simpa using hseen
  simp [validateNodes, ht, strTruthy, hne, hmem]

theorem validateNodes_errors_new {n : SceneNode} {t : String} (ht : n.id = some t) (hne : t ≠ "")
    {seen : List String} (hseen : seen.contains t = false) (ns : List SceneNode) :
    (validateNodes (n :: ns) seen).errors = (validateNodes ns (t :: seen)).errors := by
  have hmem : t ∉ seen := by simpa using hseen
  simp [validateNodes, ht, strTruthy, hne, hmem]

theorem validateNodes_warnings_new {n : SceneNode} {t : String} (ht : n.id = some t) (hne : t ≠ "")
    {seen : List String} (hseen : seen.contains t = false) (ns : List SceneNode) :
    (validateNodes (n :: ns) seen).warnings = nodeWarnings n ++ (validateNodes ns (t :: seen)).warnings := by
  have hmem : t ∉ seen := by simpa using hseen
  simp [validateNodes, ht, strTruthy, hne, hmem]

theorem validateNodes_seen_spec (s : String) (l : List SceneNode) :
    ∀ seen : List String,
      (s ∈ (validateNodes l seen).seen ↔
        s ∈ seen ∨ (s ≠ "" ∧ some s ∈ l.map SceneNode.id)) := by
  induction l with
  | nil => intro seen; simp [validateNodes]
  | cons n ns ih =>
    intro seen
    by_cases htru : strTruthy n.id = true
    · obtain ⟨t, ht, hne⟩ := strTruthy_eq_true htru
      by_cases hseen : seen.contains t = true
      · have hmem : t ∈ seen := by simpa using hseen
        rw [validateNodes_seen_dup ht hne hseen ns, ih seen]
        constructor
        · rintro (h | h)
          · exact Or.inl h
          · exact Or.inr ⟨h.1, by simp [h.2]⟩
        · rintro (h | ⟨hs, hmem2⟩)
          · exact Or.inl h
          · rcases (by simpa [ht] using hmem2 : s = t ∨ some s ∈ ns.map SceneNode.id) with h2 | h2
            · exact Or.inl (h2 ▸ hmem)
            · exact Or.inr ⟨hs, h2⟩
      · have hseen2 : seen.contains t = false := by simpa using hseen
        rw [validateNodes_seen_new ht hne hseen2 ns, ih (t :: seen)]
        constructor
        · rintro (h | h)
          · rcases List.mem_cons.mp h with h2 | h2
            · exact Or.inr ⟨h2 ▸ hne, by simp [ht, h2]⟩
            · exact Or.inl h2
          · exact Or.inr ⟨h.1, by simp [h.2]⟩
        · rintro (h | ⟨hs, hmem2⟩)
          · exact Or.inl (List.mem_cons_of_mem t h)
          · rcases (by simpa [ht] using hmem2 : s = t ∨ some s ∈ ns.map SceneNode.id) with h2 | h2
            · exact Or.inl (by simp [h2])
            · exact Or.inr ⟨hs, h2⟩
    · have hfalse : strTruthy n.id = false := by simpa using htru
      rw [validateNodes_seen_missing hfalse ns seen, ih seen]
      constructor
      · rintro (h | h)
        · exact Or.inl h
        · exact Or.inr ⟨h.1, by simp [h.2]⟩
      · rintro (h | ⟨hs, hmem2⟩)
        · exact Or.inl h
        · rcases (by simpa using hmem2 : some s = n.id ∨ some s ∈ ns.map SceneNode.id) with h2 | h2
          · rcases strTruthy_eq_false hfalse with h3 | h3 <;> rw [h3] at h2
            · exact absurd h2 (by simp)
            · exact absurd (Option.some.inj h2) hs
          · exact Or.inr ⟨hs, h2⟩

/-- Exact count of the duplicate-id error produced by the node loop: with
`s` nonempty, every occurrence of id `s` counts, except that the first
occurrence is free when `s` is not in the initial seen set. -/
theorem validateNodes_count_dup {s : String} (hs : s ≠ "") (l : List SceneNode) :
    ∀ seen : List String,
      List.count (dupNodeMsg s) (validateNodes l seen).errors =
        (if seen.contains s then countNodeId s l else countNodeId s l - 1) := by
  induction l with
  | nil =>
    intro seen
    simp [validateNodes, countNodeId]
  | cons n ns ih =>
    intro seen
    by_cases htru : strTruthy n.id = true
    · obtain ⟨t, ht, hne⟩ := strTruthy_eq_true htru
      by_cases hseen : seen.contains t = true
      · rw [validateNodes_errors_dup ht hne hseen ns, List.count_cons, ih seen]
        by_cases hst : t = s
        · subst hst
          have hmem : t ∈ seen := by simpa using hseen
          simp [countNodeId, List.countP_cons, ht, hmem]
        · have hmsg : (dupNodeMsg t == dupNodeMsg s) = false := by
            simp only [beq_eq_false_iff_ne, ne_eq]
            exact fun hc => hst (dupNodeMsg_injective hc)
          have hcnt : countNodeId s (n :: ns) = countNodeId s ns := by
            simp [countNodeId, List.countP_cons, ht, hst]
          simp [hmsg, hcnt]
      · have hseen2 : seen.contains t = false := by simpa using hseen
        rw [validateNodes_errors_new ht hne hseen2 ns, ih (t :: seen)]
        by_cases hst : t = s
        · subst hst
          have hcons : (t :: seen).contains t = true := by simp
          have hcnt : countNodeId t (n :: ns) = countNodeId t ns + 1 := by
            simp [countNodeId, List.countP_cons, ht]
          have hnmem : t ∉ seen := by simpa using hseen2
          simp [hcons, hnmem, hcnt]
        · have hcons : (t :: seen).contains s = seen.contains s := by
            simp [List.contains_cons, Ne.symm hst]
          have hcnt : countNodeId s (n :: ns) = countNodeId s ns := by
            simp [countNodeId, List.countP_cons, ht, hst]
          rw [hcons, hcnt]
    · have hfalse : strTruthy n.id = false := by simpa using htru
      rw [validateNodes_errors_missing hfalse ns seen, List.count_cons, ih seen]
      have hmsg : (msgNodeNoId == dupNodeMsg s) = false := by
        simp only [beq_eq_false_iff_ne, ne_eq]
        exact msgNodeNoId_ne_dupNodeMsg s
      have hcnt : countNodeId s (n :: ns) = countNodeId s ns := by
        rcases strTruthy_eq_false hfalse with h3 | h3 <;>
          simp [countNodeId, List.countP_cons, h3, hs, Ne.symm hs]
      simp [hmsg, hcnt]

/-- The node loop warns about every node with a falsy name. -/
theorem validateNodes_warns_noName {n : SceneNode} (hname : strTruthy n.name = false)
    (l : List SceneNode) :
    ∀ seen : List String, n ∈ l → noNameWarning n ∈ (validateNodes l seen).warnings := by
  induction l with
  | nil => intro seen h; simp at h
  | cons m ms ih =>
    intro seen hmem
    have hwarn : noNameWarning n ∈ nodeWarnings n := by simp [nodeWarnings, hname]
    rcases List.mem_cons.mp hmem with h1 | h1
    · subst h1
      by_cases htru : strTruthy n.id = true
      · obtain ⟨t, ht, hne⟩ := strTruthy_eq_true htru
        by_cases hseen : seen.contains t = true
        · rw [validateNodes_warnings_dup ht hne hseen ms]
          exact List.mem_append_left _ hwarn
        · have hseen2 : seen.contains t = false := by simpa using hseen
          rw [validateNodes_warnings_new ht hne hseen2 ms]
          exact List.mem_append_left _ hwarn
      · have hfalse : strTruthy n.id = false := by simpa using htru
        rw [validateNodes_warnings_missing hfalse ms seen]
        exact List.mem_append_left _ hwarn
    · by_cases htru : strTruthy m.id = true
      · obtain ⟨t, ht, hne⟩ := strTruthy_eq_true htru
        by_cases hseen : seen.contains t = true
        · rw [validateNodes_warnings_dup ht hne hseen ms]
          exact List.mem_append_right _ (ih seen h1)
        · have hseen2 : seen.contains t = false := by simpa using hseen
          rw [validateNodes_warnings_new ht hne hseen2 ms]
          exact List.mem_append_right _ (ih (t :: seen) h1)
      · have hfalse : strTruthy m.id = false := by simpa using htru
        rw [validateNodes_warnings_missing hfalse ms seen]
        exact List.mem_append_right _ (ih seen h1)

/-- Renaming every node changes neither the seen-id set nor the errors of
the node loop (names only feed the warning push). -/
theorem validateNodes_mapName (f : Option String → Option String) (l : List SceneNode) :
    ∀ seen : List String,
      (validateNodes (l.map (fun n => { n with name := f n.name })) seen).seen =
          (validateNodes l seen).seen ∧
        (validateNodes (l.map (fun n => { n with name := f n.name })) seen).errors =
          (validateNodes l seen).errors := by
  induction l with
  | nil => intro seen; simp [validateNodes]
  | cons n ns ih =>
    intro seen
    have hid : (({ n with name := f n.name } : SceneNode)).id = n.id := rfl
    by_cases htru : strTruthy n.id = true
    · obtain ⟨t, ht, hne⟩ := strTruthy_eq_true htru
      have ht2 : (({ n with name := f n.name } : SceneNode)).id = some t := ht
      by_cases hseen : seen.contains t = true
      · rw [List.map_cons, validateNodes_seen_dup ht2 hne hseen,
          validateNodes_seen_dup ht hne hseen,
          validateNodes_errors_dup ht2 hne hseen, validateNodes_errors_dup ht hne hseen,
          (ih seen).1, (ih seen).2]
        exact ⟨rfl, rfl⟩
      · have hseen2 : seen.contains t = false := by simpa using hseen
        rw [List.map_cons, validateNodes_seen_new ht2 hne hseen2,
          validateNodes_seen_new ht hne hseen2,
          validateNodes_errors_new ht2 hne hseen2, validateNodes_errors_new ht hne hseen2,
          (ih (t :: seen)).1, (ih (t :: seen)).2]
        exact ⟨rfl, rfl⟩
    · have hfalse : strTruthy n.id = false := by simpa using htru
      have hfalse2 : strTruthy (({ n with name := f n.name } : SceneNode)).id = false := hfalse
      rw [List.map_cons, validateNodes_seen_missing hfalse2,
        validateNodes_seen_missing hfalse,
        validateNodes_errors_missing hfalse2, validateNodes_errors_missing hfalse,
        (ih seen).1, (ih seen).2]
      exact ⟨rfl, rfl⟩

/-- Every string produced by the edge loop is one of the four edge error
shapes. -/
theorem mem_validateEdges_shape {N : List String} {x : String} (es : List SceneEdge) :
    ∀ seen : List String, x ∈ validateEdges N es seen →
      x = msgEdgeNoId ∨ (∃ t, x = dupEdgeMsg t) ∨
        ∃ e, e ∈ es ∧ (x = srcErrMsg e ∨ x = tgtErrMsg e) := by
  induction es with
  | nil => intro seen h; simp [validateEdges] at h
  | cons e es ih =>
    intro seen h
    have href : x ∈ edgeRefErrors N e → x = srcErrMsg e ∨ x = tgtErrMsg e := by
      intro hx
      unfold edgeRefErrors at hx
      rcases List.mem_append.mp hx with h1 | h1
      · split at h1
        · simp at h1
        · exact Or.inl (by simpa using h1)
      · split at h1
        · simp at h1
        · exact Or.inr (by simpa using h1)
    have hstep : ∀ seen2, x ∈ edgeRefErrors N e ++ validateEdges N es seen2 →
        x = msgEdgeNoId ∨ (∃ t, x = dupEdgeMsg t) ∨
          ∃ d, d ∈ e :: es ∧ (x = srcErrMsg d ∨ x = tgtErrMsg d) := by
      intro seen2 hx
      rcases List.mem_append.mp hx with h1 | h1
      · exact Or.inr (Or.inr ⟨e, List.mem_cons_self e es, href h1⟩)
      · rcases ih seen2 h1 with h2 | h2 | ⟨d, hd, h2⟩
        · exact Or.inl h2
        · exact Or.inr (Or.inl h2)
        · exact Or.inr (Or.inr ⟨d, List.mem_cons_of_mem e hd, h2⟩)
    unfold validateEdges at h
    split at h
    · rcases List.mem_cons.mp h with h1 | h1
      · exact Or.inl h1
      · exact hstep seen h1
    · split at h
      · rcases List.mem_cons.mp h with h1 | h1
        · exact Or.inr (Or.inl ⟨_, h1⟩)
        · exact hstep seen h1
      · exact hstep _ h

/-- Every reference error of an edge of the list appears in the edge
output of the edge loop. -/
theorem edgeRefErrors_sub_validateEdges {N : List String} {x : String} {e : SceneEdge}
    (es : List SceneEdge) :
    ∀ seen : List String, e ∈ es → x ∈ edgeRefErrors N e → x ∈ validateEdges N es seen := by
  induction es with
  | nil => intro seen h; simp at h
  | cons d ds ih =>
    intro seen hmem hx
    have hgoal : ∀ seen2, x ∈ edgeRefErrors N d ++ validateEdges N ds seen2 := by
      intro seen2
      rcases List.mem_cons.mp hmem with h1 | h1
      · exact List.mem_append_left _ (h1 ▸ hx)
      · exact List.mem_append_right _ (ih seen2 h1 hx)
    unfold validateEdges
    split
    · exact List.mem_cons_of_mem _ (hgoal seen)
    · split
      · exact List.mem_cons_of_mem _ (hgoal seen)
      · exact hgoal _

/-- The duplicate-node-id error string is never produced by the edge
loop. -/
theorem dupNodeMsg_not_mem_validateEdges {N : List String} {s : String}
    (es : List SceneEdge) (seen : List String) :
    dupNodeMsg s ∉ validateEdges N es seen := by
  intro h
  rcases mem_validateEdges_shape es seen h with h1 | ⟨t, h1⟩ | ⟨e, _, h1 | h1⟩
  · exact msgEdgeNoId_ne_dupNodeMsg s h1.symm
  · exact dupEdgeMsg_ne_dupNodeMsg t s h1.symm
  · exact srcErrMsg_ne_dupNodeMsg e s h1.symm
  · exact tgtErrMsg_ne_dupNodeMsg e s h1.symm

/-- The duplicate-node-id error string is never among the presence
errors. -/
theorem dupNodeMsg_not_mem_presenceErrors {s : String} (scene : SceneFile) :
    dupNodeMsg s ∉ presenceErrors scene := by
  intro h
  unfold presenceErrors at h
  rcases List.mem_append.mp h with h1 | h1
  · rcases List.mem_append.mp h1 with h2 | h2
    · split at h2
      · simp at h2
      · exact msgNoVersion_ne_dupNodeMsg s (by simpa using h2 : dupNodeMsg s = msgNoVersion).symm
    · split at h2
      · simp at h2
      · exact msgNoName_ne_dupNodeMsg s (by simpa using h2 : dupNodeMsg s = msgNoName).symm
  · split at h1
    · simp at h1
    · exact msgNoNodes_ne_dupNodeMsg s (by simpa using h1 : dupNodeMsg s = msgNoNodes).symm

theorem foldMin_cons (x y : ℚ) (ys : List ℚ) : foldMin x (y :: ys) = foldMin (min x y) ys := rfl

theorem foldMax_cons (x y : ℚ) (ys : List ℚ) : foldMax x (y :: ys) = foldMax (max x y) ys := rfl

theorem foldMin_le (xs : List ℚ) :
    ∀ x, foldMin x xs ≤ x ∧ ∀ q ∈ xs, foldMin x xs ≤ q := by
  induction xs with
  | nil => intro x; exact ⟨le_refl x, by simp⟩
  | cons y ys ih =>
    intro x
    have h := ih (min x y)
    rw [foldMin_cons]
    refine ⟨le_trans h.1 (min_le_left x y), ?_⟩
    intro q hq
    rcases List.mem_cons.mp hq with h1 | h1
    · rw [h1]
      exact le_trans h.1 (min_le_right x y)
    · exact h.2 q h1

theorem foldMax_le (xs : List ℚ) :
    ∀ x, x ≤ foldMax x xs ∧ ∀ q ∈ xs, q ≤ foldMax x xs := by
  induction xs with
  | nil => intro x; exact ⟨le_refl x, by simp⟩
  | cons y ys ih =>
    intro x
    have h := ih (max x y)
    rw [foldMax_cons]
    refine ⟨le_trans (le_max_left x y) h.1, ?_⟩
    intro q hq
    rcases List.mem_cons.mp hq with h1 | h1
    · rw [h1]
      exact le_trans (le_max_right x y) h.1
    · exact h.2 q h1

theorem foldMin_mem (xs : List ℚ) : ∀ x, foldMin x xs = x ∨ foldMin x xs ∈ xs := by
  induction xs with
  | nil => intro x; exact Or.inl rfl
  | cons y ys ih =>
    intro x
    rw [foldMin_cons]
    rcases ih (min x y) with h | h
    · rcases min_choice x y with h2 | h2
      · exact Or.inl (by rw [h, h2])
      · exact Or.inr (by rw [h, h2]; exact List.mem_cons_self y ys)
    · exact Or.inr (List.mem_cons_of_mem y h)

theorem foldMax_mem (xs : List ℚ) : ∀ x, foldMax x xs = x ∨ foldMax x xs ∈ xs := by
  induction xs with
  | nil => intro x; exact Or.inl rfl
  | cons y ys ih =>
    intro x
    rw [foldMax_cons]
    rcases ih (max x y) with h | h
    · rcases max_choice x y with h2 | h2
      · exact Or.inl (by rw [h, h2])
      · exact Or.inr (by rw [h, h2]; exact List.mem_cons_self y ys)
    · exact Or.inr (List.mem_cons_of_mem y h)

/-- Fact: `Math.min(x, ...xs)` is the exact minimum of the values `x :: xs`. -/
theorem foldMin_isMinOf (x : ℚ) (xs : List ℚ) : isMinOf (foldMin x xs) (x :: xs) := by
  constructor
  · rcases foldMin_mem xs x with h | h
    · rw [h]; exact List.mem_cons_self x xs
    · exact List.mem_cons_of_mem x h
  · intro q hq
    rcases List.mem_cons.mp hq with h1 | h1
    · rw [h1]
      exact (foldMin_le xs x).1
    · exact (foldMin_le xs x).2 q h1

/-- Fact: `Math.max(x, ...xs)` is the exact maximum of the values `x :: xs`. -/
theorem foldMax_isMaxOf (x : ℚ) (xs : List ℚ) : isMaxOf (foldMax x xs) (x :: xs) := by
  constructor
  · rcases foldMax_mem xs x with h | h
    · rw [h]; exact List.mem_cons_self x xs
    · exact List.mem_cons_of_mem x h
  · intro q hq
    rcases List.mem_cons.mp hq with h1 | h1
    · rw [h1]
      exact (foldMax_le xs x).1
    · exact (foldMax_le xs x).2 q h1

/-- Unfolding: `calculateSceneStats` reduces to `statsOfGraph` when the graph is
present. -/
theorem calculateSceneStats_some {scene : SceneFile} {g : SceneGraph}
    (h : scene.scene = some g) : calculateSceneStats scene = statsOfGraph g := by
  unfold calculateSceneStats
  rw [h]

/-- Unfolding: `validateScene` on a scene whose graph field is absent: the read
`scene.scene.nodes` in the node-loop header throws. -/
theorem validateScene_none {scene : SceneFile} (h : scene.scene = none) :
    validateScene scene = Except.error () := by
  unfold validateScene
  rw [h]

/-- Unfolding: `validateScene` on a scene whose graph field is present: the normal
return, spelled out. -/
theorem validateScene_some {scene : SceneFile} {g : SceneGraph} (h : scene.scene = some g) :
    validateScene scene =
      Except.ok
        ⟨(presenceErrors scene ++ (validateNodes (g.nodes.getD []) []).errors ++
            validateEdges (validateNodes (g.nodes.getD []) []).seen (g.edges.getD []) []).isEmpty,
         presenceErrors scene ++ (validateNodes (g.nodes.getD []) []).errors ++
            validateEdges (validateNodes (g.nodes.getD []) []).seen (g.edges.getD []) [],
         (validateNodes (g.nodes.getD []) []).warnings⟩ := by
  unfold validateScene
  rw [h]

end TS

/-! ### C7 — createTransform merges per field onto defaults -/

/-- C7: `createTransform` merges each supplied partial component field by
field onto the defaults position (0,0,0), rotation (0,0,0), scale (1,1,1):
every specified coordinate is taken over, every unspecified coordinate
keeps its default; in particular a partial position with x = 10, y = 20
yields position (10,20,0) with rotation (0,0,0) and scale (1,1,1). -/
theorem TS.createTransform_per_field_merge (p r s : TS.PartialVec3) :
    (TS.createTransform p r s).position.x = p.x.getD 0 ∧
    (TS.createTransform p r s).position.y = p.y.getD 0 ∧
    (TS.createTransform p r s).position.z = p.z.getD 0 ∧
    (TS.createTransform p r s).rotation.x = r.x.getD 0 ∧
    (TS.createTransform p r s).rotation.y = r.y.getD 0 ∧
    (TS.createTransform p r s).rotation.z = r.z.getD 0 ∧
    (TS.createTransform p r s).scale.x = s.x.getD 1 ∧
    (TS.createTransform p r s).scale.y = s.y.getD 1 ∧
    (TS.createTransform p r s).scale.z = s.z.getD 1 ∧
    TS.createTransform ⟨some 10, some 20, none⟩ TS.emptyPartialVec3 TS.emptyPartialVec3 =
      ⟨⟨10, 20, 0⟩, ⟨0, 0, 0⟩, ⟨1, 1, 1⟩⟩ :=
  ⟨rfl, rfl, rfl, rfl, rfl, rfl, rfl, rfl, rfl, rfl⟩

/-! ### C8 — createMaterial merges overrides field-wholesale onto defaults -/

/-- C8: `createMaterial` merges overrides onto the defaults color
(0.8,0.8,0.8, alpha 1), metalness 0, roughness 0.5, opacity 1,
transparent false, wireframe false, replacing each overridden field as a
whole: a supplied color replaces the entire color object (no per-channel
merge), and `createMaterial` with only wireframe = true keeps every other
default unchanged. -/
theorem TS.createMaterial_wholesale_merge (o : TS.Material) (c : TS.Color) :
    TS.createMaterial o =
      ⟨some (o.color.getD ⟨0.8, 0.8, 0.8, some 1⟩), o.emissive,
       some (o.metalness.getD 0), some (o.roughness.getD 0.5),
       some (o.opacity.getD 1), some (o.transparent.getD false),
       some (o.wireframe.getD false), o.texture⟩ ∧
    (TS.createMaterial { o with color := some c }).color = some c ∧
    (TS.createMaterial { o with color := none }).color = some ⟨0.8, 0.8, 0.8, some 1⟩ ∧
    TS.createMaterial { TS.emptyMaterial with wireframe := some true } =
      ⟨some ⟨0.8, 0.8, 0.8, some 1⟩, none, some 0, some 0.5, some 1,
       some false, some true, none⟩ :=
  ⟨rfl, rfl, rfl, rfl⟩

/-! ### C9 — Go AddNode appends unconditionally and changes nothing else -/

/-- C9: `AddNode` appends the given node at the end of the node slice with
no id-uniqueness or validity check (the node argument is arbitrary, so in
particular it may duplicate an existing id); `GetNodeCount` afterwards is
exactly one more than before, and every other part of the scene file —
edges, scene bounds, metadata, version, assets, extensions — is
unchanged. -/
theorem Go.AddNode_appends_unconditionally (sf : Go.SceneFile) (n : Go.SceneNode) :
    Go.GetNodeCount (Go.AddNode sf n) = Go.GetNodeCount sf + 1 ∧
    (Go.AddNode sf n).scene.nodes = sf.scene.nodes ++ [n] ∧
    (Go.AddNode sf n).scene.edges = sf.scene.edges ∧
    (Go.AddNode sf n).scene.bounds = sf.scene.bounds ∧
    (Go.AddNode sf n).metadata = sf.metadata ∧
    (Go.AddNode sf n).version = sf.version ∧
    (Go.AddNode sf n).assets = sf.assets ∧
    (Go.AddNode sf n).extensions = sf.extensions := by
  refine ⟨?_, rfl, rfl, rfl, rfl, rfl, rfl, rfl⟩
  simp [Go.GetNodeCount, Go.AddNode]

/-! ### C2 — valid iff the error list is empty -/

/-- C2: whenever `validateScene` returns a result, `valid` is true exactly
when the collected error list is empty (so the warnings list never affects
validity); and every scene with a truthy version, a truthy metadata name
and empty node and edge lists is reported valid with an empty error
list. -/
theorem TS.validateScene_valid_iff_no_errors :
    (∀ (scene : TS.SceneFile) (r : TS.ValidationResult),
        TS.validateScene scene = Except.ok r → (r.valid = true ↔ r.errors = [])) ∧
    (∀ (scene : TS.SceneFile) (g : TS.SceneGraph),
        scene.scene = some g → g.nodes = some [] → g.edges = some [] →
        TS.strTruthy scene.version = true →
        TS.strTruthy (scene.metadata.bind TS.SceneMetadata.name) = true →
        TS.validateScene scene = Except.ok ⟨true, [], []⟩) := by
  constructor
  · intro scene r h
    cases hs : scene.scene with
    | none =>
      rw [TS.validateScene_none hs] at h
      simp at h
    | some g =>
      rw [TS.validateScene_some hs] at h
      injection h with h2
      subst h2
      simp [List.isEmpty_iff]
  · intro scene g hg hn he hv hm
    rw [TS.validateScene_some hg]
    simp [TS.presenceErrors, hv, hm, hg, hn, he, TS.validateNodes, TS.validateEdges]

/-- C2 witness: the concrete empty scene is reported valid with no errors
and no warnings. -/
theorem TS.c2_witness : TS.validateScene TS.c2Scene = Except.ok ⟨true, [], []⟩ :=
  TS.validateScene_valid_iff_no_errors.2 TS.c2Scene TS.c2Graph rfl rfl rfl (by decide) (by decide)

/-! ### C3 — one duplicate-id error per occurrence beyond the first -/

/-- C3: for every scene on which `validateScene` returns, and every
non-empty id `s`, the error list contains the string
"Duplicate node id: s" exactly (number of nodes with id `s`) − 1 times:
one per occurrence beyond the first, the first occurrence being recorded
in the seen set without error. -/
theorem TS.validateScene_counts_duplicate_ids
    (scene : TS.SceneFile) (g : TS.SceneGraph) (r : TS.ValidationResult) (s : String)
    (hg : scene.scene = some g) (hok : TS.validateScene scene = Except.ok r)
    (hs : s ≠ "") :
    List.count (TS.dupNodeMsg s) r.errors = TS.countNodeId s (g.nodes.getD []) - 1 := by
  rw [TS.validateScene_some hg] at hok
  injection hok with h2
  subst h2
  rw [List.count_append, List.count_append]
  rw [List.count_eq_zero.mpr (TS.dupNodeMsg_not_mem_presenceErrors scene),
    List.count_eq_zero.mpr (TS.dupNodeMsg_not_mem_validateEdges _ _),
    TS.validateNodes_count_dup hs (g.nodes.getD []) []]
  simp

/-- C3 witness: three nodes sharing the id "a" produce the duplicate error
exactly twice. -/
theorem TS.c3_witness :
    TS.validateScene TS.c3Scene =
        Except.ok ⟨false, [TS.dupNodeMsg "a", TS.dupNodeMsg "a"], []⟩ ∧
    List.count (TS.dupNodeMsg "a") [TS.dupNodeMsg "a", TS.dupNodeMsg "a"] =
      TS.countNodeId "a" (TS.c3Graph.nodes.getD []) - 1 := by
  constructor
  · rfl
  · exact TS.validateScene_counts_duplicate_ids TS.c3Scene TS.c3Graph
      ⟨false, [TS.dupNodeMsg "a", TS.dupNodeMsg "a"], []⟩ "a" rfl (by rfl) (by decide)

namespace TS

/-- The `getD []` of an optional node list commutes with mapping the
nodes. -/
theorem getD_map_nodes (o : Option (List SceneNode)) (f : SceneNode → SceneNode) :
    (o.map (List.map f)).getD [] = (o.getD []).map f := by
  cases o <;> simp

end TS

/-! ### C6 — a missing node name is a warning, never an error -/

/-- C6: a node with a falsy name makes `validateScene` push the warning
"Node (id) has no name" for that node; warnings do not affect validity
(an empty error list always yields valid = true); and the error list is
wholly independent of node names, so a missing name never contributes an
error. -/
theorem TS.validateScene_noName_is_warning :
    (∀ (scene : TS.SceneFile) (r : TS.ValidationResult),
        TS.validateScene scene = Except.ok r → r.errors = [] → r.valid = true) ∧
    (∀ (scene : TS.SceneFile) (g : TS.SceneGraph) (r : TS.ValidationResult) (n : TS.SceneNode),
        scene.scene = some g → TS.validateScene scene = Except.ok r →
        n ∈ g.nodes.getD [] → TS.strTruthy n.name = false →
        TS.noNameWarning n ∈ r.warnings) ∧
    (∀ (scene : TS.SceneFile) (f : Option String → Option String),
        (TS.validateScene (TS.mapNodeNames f scene)).map TS.ValidationResult.errors =
          (TS.validateScene scene).map TS.ValidationResult.errors) := by
  refine ⟨?_, ?_, ?_⟩
  · intro scene r hok herr
    cases hs : scene.scene with
    | none => rw [TS.validateScene_none hs] at hok; simp at hok
    | some g =>
      rw [TS.validateScene_some hs] at hok
      injection hok with h2
      subst h2
      simp only [] at herr ⊢
      simp [herr]
  · intro scene g r n hg hok hmem hname
    rw [TS.validateScene_some hg] at hok
    injection hok with h2
    subst h2
    exact TS.validateNodes_warns_noName hname _ [] hmem
  · intro scene f
    cases hs : scene.scene with
    | none =>
      have h2 : (TS.mapNodeNames f scene).scene = none := by simp [TS.mapNodeNames, hs]
      rw [TS.validateScene_none hs, TS.validateScene_none h2]
    | some g =>
      have h2 : (TS.mapNodeNames f scene).scene =
          some ⟨g.nodes.map (List.map (fun n => { n with name := f n.name })), g.edges⟩ := by
        simp [TS.mapNodeNames, hs]
      have hpres : TS.presenceErrors (TS.mapNodeNames f scene) = TS.presenceErrors scene := by
        unfold TS.presenceErrors
        simp [TS.mapNodeNames, hs]
      rw [TS.validateScene_some hs, TS.validateScene_some h2]
      simp only [Except.map]
      rw [hpres]
      have hmap := TS.validateNodes_mapName (f := f) (g.nodes.getD []) []
      have hnodes : ((⟨g.nodes.map (List.map (fun n => { n with name := f n.name })), g.edges⟩ :
          TS.SceneGraph)).nodes.getD [] =
          (g.nodes.getD []).map (fun n => { n with name := f n.name }) := by
        exact TS.getD_map_nodes g.nodes _
      rw [hnodes, hmap.1, hmap.2]

/-- C6 witness: the concrete one-node scene without a name is valid, has
no errors, and carries exactly the missing-name warning. -/
theorem TS.c6_witness :
    TS.validateScene TS.c6Scene = Except.ok ⟨true, [], [TS.noNameWarning TS.c6Node]⟩ ∧
    TS.noNameWarning TS.c6Node ∈
      (TS.ValidationResult.mk true [] [TS.noNameWarning TS.c6Node]).warnings := by
  refine ⟨rfl, ?_⟩
  exact TS.validateScene_noName_is_warning.2.1 TS.c6Scene TS.c6Graph
    ⟨true, [], [TS.noNameWarning TS.c6Node]⟩ TS.c6Node rfl (by rfl) (by decide) rfl

/-! ### C10 — an empty-string id is treated like a missing id -/

/-- C10: the node loop treats a node whose id is the empty string exactly
like a node with no id: it pushes "All nodes must have an id" and leaves
the seen-id set unchanged; consequently the concrete scene with two
empty-string-id nodes collects that error twice and no duplicate-id
error. -/
theorem TS.validateScene_empty_id_treated_as_missing :
    (∀ (n : TS.SceneNode) (ns : List TS.SceneNode) (seen : List String),
        n.id = some "" →
        (TS.validateNodes (n :: ns) seen).seen = (TS.validateNodes ns seen).seen ∧
        (TS.validateNodes (n :: ns) seen).errors =
          TS.msgNodeNoId :: (TS.validateNodes ns seen).errors) ∧
    TS.validateScene TS.c10Scene =
      Except.ok ⟨false, [TS.msgNodeNoId, TS.msgNodeNoId], []⟩ ∧
    (∀ s, TS.dupNodeMsg s ∉ [TS.msgNodeNoId, TS.msgNodeNoId]) := by
  refine ⟨?_, rfl, ?_⟩
  · intro n ns seen h
    have hfalse : TS.strTruthy n.id = false := by simp [TS.strTruthy, h]
    exact ⟨TS.validateNodes_seen_missing hfalse ns seen,
      TS.validateNodes_errors_missing hfalse ns seen⟩
  · intro s hmem
    rcases List.mem_cons.mp hmem with h1 | h1
    · exact TS.msgNodeNoId_ne_dupNodeMsg s h1.symm
    · rcases List.mem_cons.mp h1 with h2 | h2
      · exact TS.msgNodeNoId_ne_dupNodeMsg s h2.symm
      · simp at h2

/-- C10 witness: one concrete empty-string-id node yields exactly the
missing-id error. -/
theorem TS.c10_witness :
    (TS.validateNodes [⟨some "", some "server", some "N1", some (TS.tfData ⟨0, 0, 0⟩)⟩] []).errors =
      [TS.msgNodeNoId] := by
  have h := TS.validateScene_empty_id_treated_as_missing.1
    ⟨some "", some "server", some "N1", some (TS.tfData ⟨0, 0, 0⟩)⟩ [] [] rfl
  rw [h.2]
  rfl

/-! ### C1 — validateScene and absent required fields -/

/-- C1 counterexample: on a scene file whose `scene` graph field is absent
(version and metadata present), `validateScene` does not return a
`ValidationResult` — the read `scene.scene.nodes` in the node-loop header
throws a `TypeError`, modelled as `Except.error ()`. -/
theorem TS.validateScene_throws_on_absent_graph :
    TS.validateScene TS.c1Scene = Except.error () := rfl

/-- C1 (amended): whenever the `scene` graph field is present,
`validateScene` returns a `ValidationResult` without throwing, even when
the node list or the edge list is absent; an absent edge list is treated
exactly like an empty one, and an absent node list is treated as empty
for iteration — the node-presence error is reported, and apart from that
error the result coincides with the result for an explicitly empty node
list. (Only an absent scene graph itself makes the function throw.) -/
theorem TS.validateScene_total_given_graph :
    (∀ (scene : TS.SceneFile) (g : TS.SceneGraph),
        scene.scene = some g → (TS.validateScene scene).isOk = true) ∧
    (∀ (scene : TS.SceneFile) (g : TS.SceneGraph),
        scene.scene = some g → g.edges = none →
        TS.validateScene scene =
          TS.validateScene { scene with scene := some { g with edges := some [] } }) ∧
    (∀ (scene : TS.SceneFile) (g : TS.SceneGraph),
        scene.scene = some g → g.nodes = none →
        (TS.validateScene scene).map (fun r => r.errors.contains TS.msgNoNodes) =
          Except.ok true ∧
        (TS.validateScene scene).map (fun r => r.errors.erase TS.msgNoNodes) =
          (TS.validateScene { scene with scene := some { g with nodes := some [] } }).map
            TS.ValidationResult.errors ∧
        (TS.validateScene scene).map TS.ValidationResult.warnings =
          (TS.validateScene { scene with scene := some { g with nodes := some [] } }).map
            TS.ValidationResult.warnings) := by
  refine ⟨?_, ?_, ?_⟩
  · intro scene g hg
    rw [TS.validateScene_some hg]
    rfl
  · intro scene g hg he
    rw [TS.validateScene_some hg,
      TS.validateScene_some (show ({ scene with scene := some { g with edges := some [] } } :
        TS.SceneFile).scene = some { g with edges := some [] } from rfl)]
    simp [TS.presenceErrors, hg, he]
  · intro scene g hg hn
    rw [TS.validateScene_some hg,
      TS.validateScene_some (show ({ scene with scene := some { g with nodes := some [] } } :
        TS.SceneFile).scene = some { g with nodes := some [] } from rfl)]
    have hvn : TS.msgNoVersion ≠ TS.msgNoNodes := by decide
    have hnn : TS.msgNoName ≠ TS.msgNoNodes := by decide
    refine ⟨?_, ?_, ?_⟩
    · simp [Except.map, TS.presenceErrors, hg, hn, TS.validateNodes]
    · by_cases hv : TS.strTruthy scene.version <;>
        by_cases hm : TS.strTruthy (scene.metadata.bind TS.SceneMetadata.name) <;>
          simp [Except.map, TS.presenceErrors, hg, hn, hv, hm, TS.validateNodes,
            List.erase_cons, hvn, hnn]
    · simp [Except.map, TS.presenceErrors, hg, hn, TS.validateNodes]

/-- C1 witness: the concrete scene with a present graph but absent node
and edge lists validates without throwing; replacing the absent edge list
by an empty one changes nothing, and the node-presence error is
reported. -/
theorem TS.c1_witness :
    (TS.validateScene TS.c1OkScene).isOk = true ∧
    TS.validateScene TS.c1OkScene =
      TS.validateScene { TS.c1OkScene with scene := some { TS.c1Graph with edges := some [] } } ∧
    (TS.validateScene TS.c1OkScene).map (fun r => r.errors.contains TS.msgNoNodes) =
      Except.ok true := by
  refine ⟨?_, ?_, ?_⟩
  · exact TS.validateScene_total_given_graph.1 TS.c1OkScene TS.c1Graph rfl
  · exact TS.validateScene_total_given_graph.2.1 TS.c1OkScene TS.c1Graph rfl rfl
  · exact (TS.validateScene_total_given_graph.2.2 TS.c1OkScene TS.c1Graph rfl rfl).1

/-! ### C4 — independent edge reference checks -/

/-- C4: for every edge, `validateScene` checks independently that the
source and the target are each in the node-id set: a missing source
yields the source error, a missing target yields the target error, both
errors appear when both references are missing, and a self-referential
edge naming an existing node yields neither; the node-id set holds
exactly the non-empty node ids. -/
theorem TS.validateScene_checks_edge_refs :
    (∀ (N : List String) (e : TS.SceneEdge),
        TS.hasOpt N e.source = false → TS.srcErrMsg e ∈ TS.edgeRefErrors N e) ∧
    (∀ (N : List String) (e : TS.SceneEdge),
        TS.hasOpt N e.target = false → TS.tgtErrMsg e ∈ TS.edgeRefErrors N e) ∧
    (∀ (N : List String) (e : TS.SceneEdge),
        TS.hasOpt N e.source = false → TS.hasOpt N e.target = false →
        TS.edgeRefErrors N e = [TS.srcErrMsg e, TS.tgtErrMsg e]) ∧
    (∀ (N : List String) (e : TS.SceneEdge) (s : String),
        e.source = some s → e.target = some s → N.contains s = true →
        TS.edgeRefErrors N e = []) ∧
    (∀ (scene : TS.SceneFile) (g : TS.SceneGraph) (r : TS.ValidationResult) (e : TS.SceneEdge),
        scene.scene = some g → TS.validateScene scene = Except.ok r →
        e ∈ g.edges.getD [] →
        (TS.hasOpt (TS.validateNodes (g.nodes.getD []) []).seen e.source = false →
          TS.srcErrMsg e ∈ r.errors) ∧
        (TS.hasOpt (TS.validateNodes (g.nodes.getD []) []).seen e.target = false →
          TS.tgtErrMsg e ∈ r.errors)) ∧
    (∀ (g : TS.SceneGraph) (s : String),
        (TS.validateNodes (g.nodes.getD []) []).seen.contains s = true ↔
          s ≠ "" ∧ some s ∈ (g.nodes.getD []).map TS.SceneNode.id) := by
  refine ⟨?_, ?_, ?_, ?_, ?_, ?_⟩
  · intro N e h
    simp [TS.edgeRefErrors, h]
  · intro N e h
    simp [TS.edgeRefErrors, h]
  · intro N e h1 h2
    simp [TS.edgeRefErrors, h1, h2]
  · intro N e s h1 h2 hN
    have hmem : s ∈ N := by simpa using hN
    simp [TS.edgeRefErrors, TS.hasOpt, h1, h2, hmem]
  · intro scene g r e hg hok hmem
    rw [TS.validateScene_some hg] at hok
    injection hok with h2
    subst h2
    constructor
    · intro h
      have hx : TS.srcErrMsg e ∈ TS.edgeRefErrors (TS.validateNodes (g.nodes.getD []) []).seen e := by
        simp [TS.edgeRefErrors, h]
      exact List.mem_append.mpr (Or.inr (TS.edgeRefErrors_sub_validateEdges _ [] hmem hx))
    · intro h
      have hx : TS.tgtErrMsg e ∈ TS.edgeRefErrors (TS.validateNodes (g.nodes.getD []) []).seen e := by
        simp [TS.edgeRefErrors, h]
      exact List.mem_append.mpr (Or.inr (TS.edgeRefErrors_sub_validateEdges _ [] hmem hx))
  · intro g s
    have hb : ((TS.validateNodes (g.nodes.getD []) []).seen.contains s = true) ↔
        s ∈ (TS.validateNodes (g.nodes.getD []) []).seen := by simp
    rw [hb, TS.validateNodes_seen_spec]
    simp

/-- C4 witness: the concrete dangling-source edge produces exactly the
source error; the self-referential edge on an existing node produces
neither reference error; with an empty node-id set both errors fire. -/
theorem TS.c4_witness :
    TS.validateScene TS.c4Scene = Except.ok ⟨false, [TS.srcErrMsg TS.c4Edge], []⟩ ∧
    TS.srcErrMsg TS.c4Edge ∈ (TS.ValidationResult.mk false [TS.srcErrMsg TS.c4Edge] []).errors ∧
    TS.edgeRefErrors ["a"] TS.c4SelfEdge = [] ∧
    TS.edgeRefErrors [] TS.c4Edge = [TS.srcErrMsg TS.c4Edge, TS.tgtErrMsg TS.c4Edge] ∧
    TS.srcErrMsg TS.c4Edge ∈ TS.edgeRefErrors [] TS.c4Edge ∧
    TS.tgtErrMsg TS.c4Edge ∈ TS.edgeRefErrors [] TS.c4Edge := by
  refine ⟨rfl, ?_, ?_, ?_, ?_, ?_⟩
  · exact (TS.validateScene_checks_edge_refs.2.2.2.2.1 TS.c4Scene TS.c4Graph
      ⟨false, [TS.srcErrMsg TS.c4Edge], []⟩ TS.c4Edge rfl (by rfl) (by decide)).1 rfl
  · exact TS.validateScene_checks_edge_refs.2.2.2.1 ["a"] TS.c4SelfEdge "a" rfl rfl (by decide)
  · exact TS.validateScene_checks_edge_refs.2.2.1 [] TS.c4Edge rfl rfl
  · exact TS.validateScene_checks_edge_refs.1 [] TS.c4Edge rfl
  · exact TS.validateScene_checks_edge_refs.2.1 [] TS.c4Edge rfl

/-! ### C5 — calculateSceneStats counts and exact bounds -/

/-- C5: whenever `calculateSceneStats` returns, `nodeCount` and
`edgeCount` are the lengths of the node and edge lists (0 when a list is
absent); `bounds` is present exactly when at least one position is
collected, and then min and max are the exact componentwise extrema of
the collected positions, taken independently per axis, with
size = max − min componentwise. Concretely, the three-node scene at
(0,0,0), (10,20,30), (−5,−10,−15) yields min (−5,−10,−15),
max (10,20,30), size (15,30,45), and the empty scene yields counts 0
with no bounds at all. -/
theorem TS.calculateSceneStats_spec :
    (∀ (scene : TS.SceneFile) (g : TS.SceneGraph) (st : TS.SceneStats),
        scene.scene = some g → TS.calculateSceneStats scene = Except.ok st →
        st.nodeCount = (g.nodes.getD []).length ∧
        st.edgeCount = (g.edges.getD []).length ∧
        (st.bounds.isSome = true ↔ TS.collectedPositions g ≠ []) ∧
        ∀ b, st.bounds = some b →
          TS.isMinOf b.min.x ((TS.collectedPositions g).map TS.Vec3.x) ∧
          TS.isMinOf b.min.y ((TS.collectedPositions g).map TS.Vec3.y) ∧
          TS.isMinOf b.min.z ((TS.collectedPositions g).map TS.Vec3.z) ∧
          TS.isMaxOf b.max.x ((TS.collectedPositions g).map TS.Vec3.x) ∧
          TS.isMaxOf b.max.y ((TS.collectedPositions g).map TS.Vec3.y) ∧
          TS.isMaxOf b.max.z ((TS.collectedPositions g).map TS.Vec3.z) ∧
          b.size.x = b.max.x - b.min.x ∧
          b.size.y = b.max.y - b.min.y ∧
          b.size.z = b.max.z - b.min.z) ∧
    TS.calculateSceneStats TS.c5Scene =
      Except.ok ⟨3, 0, some ⟨⟨-5, -10, -15⟩, ⟨10, 20, 30⟩, ⟨15, 30, 45⟩⟩⟩ ∧
    TS.calculateSceneStats TS.c5EmptyScene = Except.ok ⟨0, 0, none⟩ := by
  refine ⟨?_, ?_, rfl⟩
  · intro scene g st hg hok
    rw [TS.calculateSceneStats_some hg] at hok
    unfold TS.statsOfGraph at hok
    by_cases hany : ((g.nodes.getD []).any fun n => n.transform.isNone) = true
    · simp [hany] at hok
    · have hany2 : ((g.nodes.getD []).any fun n => n.transform.isNone) = false := by
        simpa using hany
      rw [hany2] at hok
      simp only [Bool.false_eq_true, if_false] at hok
      cases hp : TS.collectedPositions g with
      | nil =>
        rw [hp] at hok
        injection hok with h2
        subst h2
        refine ⟨rfl, rfl, by simp [hp], ?_⟩
        intro b hb
        simp at hb
      | cons p ps =>
        rw [hp] at hok
        injection hok with h2
        subst h2
        refine ⟨rfl, rfl, by simp [hp], ?_⟩
        intro b hb
        injection hb with h3
        subst h3
        rw [List.map_cons, List.map_cons, List.map_cons]
        exact ⟨TS.foldMin_isMinOf p.x (ps.map TS.Vec3.x),
          TS.foldMin_isMinOf p.y (ps.map TS.Vec3.y),
          TS.foldMin_isMinOf p.z (ps.map TS.Vec3.z),
          TS.foldMax_isMaxOf p.x (ps.map TS.Vec3.x),
          TS.foldMax_isMaxOf p.y (ps.map TS.Vec3.y),
          TS.foldMax_isMaxOf p.z (ps.map TS.Vec3.z),
          rfl, rfl, rfl⟩
  · have h1 : TS.collectedPositions TS.c5Graph =
        [⟨0, 0, 0⟩, ⟨10, 20, 30⟩, ⟨-5, -10, -15⟩] := rfl
    rw [TS.calculateSceneStats_some (g := TS.c5Graph) rfl]
    unfold TS.statsOfGraph
    rw [h1]
    norm_num [TS.c5Graph, TS.mkNode, TS.tfData, TS.foldMin, TS.foldMax, min_def, max_def]

/-- C5 witness: the three-node scene evaluates to the stated stats, and
the spec theorem instantiated there certifies that −5 is the exact
x-minimum, 30 the exact z-maximum, and size = max − min on the x axis. -/
theorem TS.c5_witness :
    TS.calculateSceneStats TS.c5Scene =
        Except.ok ⟨3, 0, some ⟨⟨-5, -10, -15⟩, ⟨10, 20, 30⟩, ⟨15, 30, 45⟩⟩⟩ ∧
    TS.isMinOf (-5) ((TS.collectedPositions TS.c5Graph).map TS.Vec3.x) ∧
    TS.isMaxOf 30 ((TS.collectedPositions TS.c5Graph).map TS.Vec3.z) ∧
    (15 : ℚ) = 10 - (-5) := by
  have hok := TS.calculateSceneStats_spec.2.1
  have h := (TS.calculateSceneStats_spec.1 TS.c5Scene TS.c5Graph
      ⟨3, 0, some ⟨⟨-5, -10, -15⟩, ⟨10, 20, 30⟩, ⟨15, 30, 45⟩⟩⟩ rfl hok).2.2.2
    ⟨⟨-5, -10, -15⟩, ⟨10, 20, 30⟩, ⟨15, 30, 45⟩⟩ rfl
  exact ⟨hok, h.1, h.2.2.2.2.2.1, h.2.2.2.2.2.2.1⟩

end Starfleet
